import Mathlib

/-!
Verification of the expression-AST program in `src/lab6_task1_trpo.cpp`.

The program models arithmetic expressions as a tree of four node variants
(Number, Variable, BinaryOperation, FunctionCall), each carrying C++ `double`
values, with a recursive `evaluate()` and a visitor-based deep copy
(the `CopySyntaxTree` transformer).

Modelling choices, all taken from the source:
* C++ `double` is modelled by `FP α`: either a finite value drawn from a
  linear ordered field `α` (arithmetic on finite values is idealised as exact,
  abstracting IEEE rounding), or one of the IEEE special values `+inf`,
  `-inf`, `NaN`.  Signed zero is not modelled.  Structural claims are proved
  generically in `α`; numeric claims are instantiated at `ℚ` (where every
  operation is decidable) or at `ℝ` (for the square root).
* The C library `sqrt` is an external function; `evaluate` takes the finite
  square root `sqrtFn : α → α` as a parameter and the real instantiation uses
  `Real.sqrt`.
* The operator tag of `BinaryOperation` is a C++ `int` (`int op_`), modelled
  as `Int`.  The accessor `char operation() const { return op_; }` converts
  the stored `int` to `char`; `charOf` models this conversion for an 8-bit
  signed `char` (the conversion is value-preserving exactly on [-128, 127]).
* The visitor double dispatch of `transform`/`Transformer` collapses, in a
  shallow embedding, to one structural recursion `copyTree` that performs
  exactly what the four `CopySyntaxTree` methods do.
-/

set_option linter.unusedSectionVars false

namespace AST

/-- Model of a C++ `double`: a finite value of the linear ordered field `α`
(exact, abstracting IEEE rounding), positive infinity, negative infinity, or
NaN.  Signed zero is not modelled. -/
inductive FP (α : Type) where
  | finite (x : α)
  | posInf
  | negInf
  | nan
deriving DecidableEq

variable {α : Type} [LinearOrderedField α]

/-- IEEE addition on the `double` model (`left_value + right_value`). -/
def fpAdd : FP α → FP α → FP α
  | .nan, _ => .nan
  | _, .nan => .nan
  | .posInf, .negInf => .nan
  | .negInf, .posInf => .nan
  | .posInf, _ => .posInf
  | _, .posInf => .posInf
  | .negInf, _ => .negInf
  | _, .negInf => .negInf
  | .finite a, .finite b => .finite (a + b)

/-- IEEE subtraction on the `double` model (`left_value - right_value`). -/
def fpSub : FP α → FP α → FP α
  | .nan, _ => .nan
  | _, .nan => .nan
  | .posInf, .posInf => .nan
  | .negInf, .negInf => .nan
  | .posInf, _ => .posInf
  | _, .negInf => .posInf
  | .negInf, _ => .negInf
  | _, .posInf => .negInf
  | .finite a, .finite b => .finite (a - b)

/-- IEEE multiplication on the `double` model (`left_value * right_value`). -/
def fpMul : FP α → FP α → FP α
  | .nan, _ => .nan
  | _, .nan => .nan
  | .posInf, .posInf => .posInf
  | .posInf, .negInf => .negInf
  | .negInf, .posInf => .negInf
  | .negInf, .negInf => .posInf
  | .posInf, .finite b => if 0 < b then .posInf else if b < 0 then .negInf else .nan
  | .finite a, .posInf => if 0 < a then .posInf else if a < 0 then .negInf else .nan
  | .negInf, .finite b => if 0 < b then .negInf else if b < 0 then .posInf else .nan
  | .finite a, .negInf => if 0 < a then .negInf else if a < 0 then .posInf else .nan
  | .finite a, .finite b => .finite (a * b)

/-- IEEE division on the `double` model (`left_value / right_value`): a
nonzero finite quotient is exact, a finite value divided by zero gives a
signed infinity (or NaN for 0/0), infinities divide to NaN, and a finite
value divided by an infinity gives 0. -/
def fpDiv : FP α → FP α → FP α
  | .nan, _ => .nan
  | _, .nan => .nan
  | .posInf, .posInf => .nan
  | .posInf, .negInf => .nan
  | .negInf, .posInf => .nan
  | .negInf, .negInf => .nan
  | .posInf, .finite b => if 0 ≤ b then .posInf else .negInf
  | .negInf, .finite b => if 0 ≤ b then .negInf else .posInf
  | .finite _, .posInf => .finite 0
  | .finite _, .negInf => .finite 0
  | .finite a, .finite b =>
      if b = 0 then (if 0 < a then .posInf else if a < 0 then .negInf else .nan)
      else .finite (a / b)

/-- IEEE square root on the `double` model, parameterised by the exact square
root `sqrtFn` of the field: NaN on negative inputs, `+inf` at `+inf`. -/
def fpSqrt (sqrtFn : α → α) : FP α → FP α
  | .nan => .nan
  | .posInf => .posInf
  | .negInf => .nan
  | .finite x => if 0 ≤ x then .finite (sqrtFn x) else .nan

/-- IEEE absolute value on the `double` model. -/
def fpAbs : FP α → FP α
  | .nan => .nan
  | .posInf => .posInf
  | .negInf => .posInf
  | .finite x => .finite |x|

/-- The AST of `lab6_task1_trpo.cpp`: `Number(double)`,
`Variable(std::string, double)`, `BinaryOperation(Expression*, int,
Expression*)` and `FunctionCall(std::string, Expression*)`.  The operator tag
is a plain `int`, exactly as in the C++ constructor. -/
inductive Expression (α : Type) where
  | Number (value : FP α)
  | Variable (name : String) (value : FP α)
  | BinaryOperation (left : Expression α) (op : Int) (right : Expression α)
  | FunctionCall (name : String) (arg : Expression α)
deriving DecidableEq

/-- `BinaryOperation::PLUS = '+'` (ASCII 43). -/
def PLUS : Int := 43
/-- `BinaryOperation::MINUS = '-'` (ASCII 45). -/
def MINUS : Int := 45
/-- `BinaryOperation::DIV = '/'` (ASCII 47). -/
def DIV : Int := 47
/-- `BinaryOperation::MUL = '*'` (ASCII 42). -/
def MUL : Int := 42

/-- `Expression::evaluate()`.  `Number` and `Variable` return their stored
value; `BinaryOperation::evaluate` evaluates both children then switches on
the `int` tag in source order (PLUS, MINUS, DIV, MUL, `default: return 0.0`);
`FunctionCall::evaluate` evaluates the argument then compares the name
against `"sqrt"` and `"abs"`, with an `else` branch returning 0.0.
`sqrtFn` is the finite square root used by the C library `sqrt`. -/
def evaluate (sqrtFn : α → α) : Expression α → FP α
  | .Number v => v
  | .Variable _ v => v
  | .BinaryOperation l op r =>
      let lv := evaluate sqrtFn l
      let rv := evaluate sqrtFn r
      if op = PLUS then fpAdd lv rv
      else if op = MINUS then fpSub lv rv
      else if op = DIV then fpDiv lv rv
      else if op = MUL then fpMul lv rv
      else .finite 0
  | .FunctionCall name arg =>
      let av := evaluate sqrtFn arg
      if name = "sqrt" then fpSqrt sqrtFn av
      else if name = "abs" then fpAbs av
      else .finite 0

/-- The accessor `char operation() const { return op_; }` converts the stored
`int op_` to `char`; passing the result back to the `BinaryOperation`
constructor widens it to `int` again.  `charOf` is the round trip through an
8-bit signed `char` (modular conversion into [-128, 127], as every major
compiler performs it). -/
def charOf (op : Int) : Int := (op + 128) % 256 - 128

/-- The `CopySyntaxTree` transformer of the source, with the visitor double
dispatch collapsed into a structural recursion:
`transformNumber` rebuilds `Number(number->value())`;
`transformBinaryOperation` recursively copies both children and rebuilds with
`binop->operation()` — the tag therefore passes through `char` (`charOf`);
`transformFunctionCall` recursively copies the argument and keeps the name;
`transformVariable` rebuilds `Variable(var->name(), var->evaluate())`, and
`Variable::evaluate()` returns the stored value. -/
def copyTree : Expression α → Expression α
  | .Number v => .Number v
  | .Variable name v => .Variable name v
  | .BinaryOperation l op r => .BinaryOperation (copyTree l) (charOf op) (copyTree r)
  | .FunctionCall name arg => .FunctionCall name (copyTree arg)

/-- All operator tags in the tree survive the `int → char → int` round trip
of `operation()` (true in particular of the four named tags). -/
def tagsFitChar : Expression α → Bool
  | .Number _ => true
  | .Variable _ _ => true
  | .BinaryOperation l op r => decide (charOf op = op) && tagsFitChar l && tagsFitChar r
  | .FunctionCall _ arg => tagsFitChar arg

/-- The operator tag at the root, when the root is a `BinaryOperation`. -/
def rootTag : Expression α → Option Int
  | .BinaryOperation _ op _ => some op
  | _ => none

/-- Number of nodes of the tree (every tree is finite). -/
def size : Expression α → Nat
  | .Number _ => 1
  | .Variable _ _ => 1
  | .BinaryOperation l _ r => size l + size r + 1
  | .FunctionCall _ arg => size arg + 1

/-- `evaluate` with an explicit recursion budget: each recursive call of the
C++ `evaluate()` consumes one unit of fuel, and the function returns `none`
when the budget is exhausted.  Used to state that the recursion of
`evaluate()` terminates on every finite tree. -/
def evaluateFuel (sqrtFn : α → α) : Nat → Expression α → Option (FP α)
  | 0, _ => none
  | _ + 1, .Number v => some v
  | _ + 1, .Variable _ v => some v
  | fuel + 1, .BinaryOperation l op r => do
      let lv ← evaluateFuel sqrtFn fuel l
      let rv ← evaluateFuel sqrtFn fuel r
      some (if op = PLUS then fpAdd lv rv
        else if op = MINUS then fpSub lv rv
        else if op = DIV then fpDiv lv rv
        else if op = MUL then fpMul lv rv
        else .finite 0)
  | fuel + 1, .FunctionCall name arg => do
      let av ← evaluateFuel sqrtFn fuel arg
      some (if name = "sqrt" then fpSqrt sqrtFn av
        else if name = "abs" then fpAbs av
        else .finite 0)

/-- `copyTree` with an explicit recursion budget, mirroring the recursion of
the `CopySyntaxTree` transformer. -/
def copyTreeFuel : Nat → Expression α → Option (Expression α)
  | 0, _ => none
  | _ + 1, .Number v => some (.Number v)
  | _ + 1, .Variable name v => some (.Variable name v)
  | fuel + 1, .BinaryOperation l op r => do
      let lc ← copyTreeFuel fuel l
      let rc ← copyTreeFuel fuel r
      some (.BinaryOperation lc (charOf op) rc)
  | fuel + 1, .FunctionCall name arg => do
      let ac ← copyTreeFuel fuel arg
      some (.FunctionCall name ac)


/-- Helper shared by the copy claims: whenever every operator tag of the tree
survives the `int → char → int` round trip of `operation()`, the
`CopySyntaxTree` transformer rebuilds the tree exactly. -/
theorem copyTree_eq_self (e : Expression α) (h : tagsFitChar e = true) :
    copyTree e = e := by
  induction e with
  | Number v => rfl
  | Variable name v => rfl
  | BinaryOperation l op r ihl ihr =>
      simp only [tagsFitChar, Bool.and_eq_true, decide_eq_true_eq] at h
      simp only [copyTree, h.1.1, ihl h.1.2, ihr h.2]
  | FunctionCall name arg ih =>
      simp only [tagsFitChar] at h
      simp only [copyTree, ih h]

/-- Claim C1 (amended): for every expression tree all of whose operator tags
survive the `int → char → int` round trip of `operation()` (in particular any
tag among the four named ones), evaluating the tree returned by the
`CopySyntaxTree` transformer yields the same numeric result as evaluating the
source tree. -/
theorem copy_preserves_evaluate (sqrtFn : α → α) (e : Expression α)
    (h : tagsFitChar e = true) :
    evaluate sqrtFn (copyTree e) = evaluate sqrtFn e := by
  rw [copyTree_eq_self e h]

/-- Witness for `copy_preserves_evaluate` on the concrete tree `1 + 2`. -/
theorem copy_preserves_evaluate_witness :
    tagsFitChar (.BinaryOperation (.Number (.finite (1 : ℚ))) PLUS (.Number (.finite 2))) = true ∧
    evaluate (fun x : ℚ => x)
        (copyTree (.BinaryOperation (.Number (.finite 1)) PLUS (.Number (.finite 2)))) =
      evaluate (fun x : ℚ => x)
        (.BinaryOperation (.Number (.finite 1)) PLUS (.Number (.finite 2))) ∧
    evaluate (fun x : ℚ => x)
        (.BinaryOperation (.Number (.finite 1)) PLUS (.Number (.finite 2))) = .finite 3 :=
  ⟨by decide,
   copy_preserves_evaluate (fun x : ℚ => x) _ (by decide),
   by norm_num [evaluate, fpAdd, PLUS]⟩

/-- Claim C1 counterexample: the tag 299 is representable (the constructor
takes a plain `int`), `evaluate` treats it as unknown (0.0), but the copy
rebuilds it as `(char)299 = 43 = PLUS`, so the copy of
`BinaryOperation(Number(1), 299, Number(1))` evaluates to 2.0 while the
source evaluates to 0.0. -/
theorem copy_changes_evaluate_cex :
    evaluate (fun x : ℚ => x)
        (copyTree (.BinaryOperation (.Number (.finite 1)) 299 (.Number (.finite 1)))) ≠
      evaluate (fun x : ℚ => x)
        (.BinaryOperation (.Number (.finite 1)) 299 (.Number (.finite 1))) := by
  norm_num [evaluate, copyTree, charOf, fpAdd, PLUS, MINUS, DIV, MUL]

/-- Claim C2 (amended): for every expression tree all of whose operator tags
survive the `int → char → int` round trip of `operation()` (in particular any
tag among the four named ones), the tree produced by the `CopySyntaxTree`
transformer is structurally identical to the source: literally equal as a
tree, hence the same variant at each position, the same operator tag at every
`BinaryOperation`, the same function name at every `FunctionCall`, and the
same stored value (and name) at every `Number` and `Variable`. -/
theorem copy_structurally_identical (e : Expression α) (h : tagsFitChar e = true) :
    copyTree e = e :=
  copyTree_eq_self e h

/-- Witness for `copy_structurally_identical` on the demo tree
`abs(var * sqrt(32 - 16))` of `main`. -/
theorem copy_structurally_identical_witness :
    copyTree (.FunctionCall "abs"
        (.BinaryOperation (.Variable "var" (.finite (10 : ℚ))) MUL
          (.FunctionCall "sqrt"
            (.BinaryOperation (.Number (.finite 32)) MINUS (.Number (.finite 16)))))) =
      .FunctionCall "abs"
        (.BinaryOperation (.Variable "var" (.finite (10 : ℚ))) MUL
          (.FunctionCall "sqrt"
            (.BinaryOperation (.Number (.finite 32)) MINUS (.Number (.finite 16))))) :=
  copy_structurally_identical _ (by decide)

/-- Claim C2 counterexample: the copy of
`BinaryOperation(Number(1), 299, Number(1))` carries operator tag
`(char)299 = 43`, not 299, so it is not structurally identical to the
source. -/
theorem copy_changes_structure_cex :
    copyTree (.BinaryOperation (.Number (.finite (1 : ℚ))) 299 (.Number (.finite 1))) ≠
      .BinaryOperation (.Number (.finite (1 : ℚ))) 299 (.Number (.finite 1)) := by
  decide

/-- Claim C3: for all finite values `a` and `b`,
`BinaryOperation(Number(a), op, Number(b))` evaluates to `a + b`, `a - b` or
`a * b` according to the operator tag, unconditionally; for the divide tag it
evaluates to the exact quotient `a / b` when `b ≠ 0` and otherwise follows
the IEEE division-by-zero convention (`±∞` by the sign of `a`, NaN for 0/0) —
in particular `BinaryOperation(Number(1), DIV, Number(0))` evaluates to
positive infinity, not an error and not 0.0. -/
theorem binop_applies_tagged_operation (sqrtFn : α → α) (a b : α) :
    evaluate sqrtFn (.BinaryOperation (.Number (.finite a)) PLUS (.Number (.finite b))) =
      .finite (a + b) ∧
    evaluate sqrtFn (.BinaryOperation (.Number (.finite a)) MINUS (.Number (.finite b))) =
      .finite (a - b) ∧
    evaluate sqrtFn (.BinaryOperation (.Number (.finite a)) MUL (.Number (.finite b))) =
      .finite (a * b) ∧
    (b ≠ 0 →
      evaluate sqrtFn (.BinaryOperation (.Number (.finite a)) DIV (.Number (.finite b))) =
        .finite (a / b)) ∧
    evaluate sqrtFn (.BinaryOperation (.Number (.finite a)) DIV (.Number (.finite 0))) =
      (if 0 < a then FP.posInf else if a < 0 then FP.negInf else FP.nan) ∧
    evaluate sqrtFn (.BinaryOperation (.Number (.finite 1)) DIV (.Number (.finite 0))) =
      FP.posInf := by
  refine ⟨?_, ?_, ?_, fun hb => ?_, ?_, ?_⟩ <;>
    simp_all [evaluate, fpAdd, fpSub, fpMul, fpDiv, PLUS, MINUS, DIV, MUL]

/-- Witness for `binop_applies_tagged_operation` at `a = 6`, `b = 3` over
`ℚ` (the divide-by-zero conjuncts land at `6 / 0 = +∞` and `1 / 0 = +∞`). -/
theorem binop_applies_tagged_operation_witness :
    evaluate (fun x : ℚ => x) (.BinaryOperation (.Number (.finite 6)) PLUS (.Number (.finite 3))) =
      .finite 9 ∧
    evaluate (fun x : ℚ => x) (.BinaryOperation (.Number (.finite 6)) MINUS (.Number (.finite 3))) =
      .finite 3 ∧
    evaluate (fun x : ℚ => x) (.BinaryOperation (.Number (.finite 6)) MUL (.Number (.finite 3))) =
      .finite 18 ∧
    evaluate (fun x : ℚ => x) (.BinaryOperation (.Number (.finite 6)) DIV (.Number (.finite 3))) =
      .finite 2 ∧
    evaluate (fun x : ℚ => x) (.BinaryOperation (.Number (.finite 6)) DIV (.Number (.finite 0))) =
      FP.posInf ∧
    evaluate (fun x : ℚ => x) (.BinaryOperation (.Number (.finite 1)) DIV (.Number (.finite 0))) =
      FP.posInf := by
  obtain ⟨h1, h2, h3, h4, h5, h6⟩ :=
    binop_applies_tagged_operation (fun x : ℚ => x) 6 3
  refine ⟨?_, ?_, ?_, ?_, ?_, h6⟩
  · rw [h1]; norm_num
  · rw [h2]; norm_num
  · rw [h3]; norm_num
  · rw [h4 (by norm_num)]; norm_num
  · rw [h5]; norm_num

/-- Claim C4: with the C library `sqrt` modelled as the real square root,
`FunctionCall("sqrt", Number(x))` evaluates to `√x` whenever `0 ≤ x`, and
`FunctionCall("abs", Number(x))` evaluates to `|x|` for every real `x`,
integral or not. -/
theorem functionCall_sqrt_abs (x : ℝ) :
    (0 ≤ x →
      evaluate Real.sqrt (.FunctionCall "sqrt" (.Number (.finite x))) =
        .finite (Real.sqrt x)) ∧
    evaluate Real.sqrt (.FunctionCall "abs" (.Number (.finite x))) = .finite |x| := by
  constructor
  · intro hx
    simp [evaluate, fpSqrt, hx]
  · simp [evaluate, fpAbs]

/-- Witness for `functionCall_sqrt_abs`: `sqrt(16) = 4` and `abs(-3) = 3`. -/
theorem functionCall_sqrt_abs_witness :
    evaluate Real.sqrt (.FunctionCall "sqrt" (.Number (.finite (16 : ℝ)))) = .finite 4 ∧
    evaluate Real.sqrt (.FunctionCall "abs" (.Number (.finite (-3 : ℝ)))) = .finite 3 := by
  constructor
  · rw [(functionCall_sqrt_abs 16).1 (by norm_num)]
    rw [show (16 : ℝ) = 4 ^ 2 by norm_num, Real.sqrt_sq (by norm_num : (0 : ℝ) ≤ 4)]
  · rw [(functionCall_sqrt_abs (-3)).2]
    norm_num

/-- Claim C5 counterexample: an expression whose root `BinaryOperation`
carries the tag 63 (ASCII for a question mark), which is none of the four
named tags, is representable — the constructor stores any `int` unchecked, so
unknown tags are neither unrepresentable nor rejected at construction. -/
theorem unknown_tag_not_rejected_cex :
    ∃ e : Expression ℚ, rootTag e = some 63 ∧
      (63 : Int) ≠ PLUS ∧ (63 : Int) ≠ MINUS ∧ (63 : Int) ≠ DIV ∧ (63 : Int) ≠ MUL :=
  ⟨.BinaryOperation (.Number (.finite 1)) 63 (.Number (.finite 1)), rfl,
    by decide, by decide, by decide, by decide⟩

/-- Claim C5 (amended): the operator tag of `BinaryOperation` is a plain
`int` and the constructor performs no check, so every integer tag — known or
unknown — is representable; unknown tags are handled at evaluation time (they
fall to the `default` branch), not at construction time. -/
theorem constructor_accepts_any_tag (op : Int) :
    ∃ e : Expression ℚ, rootTag e = some op :=
  ⟨.BinaryOperation (.Number (.finite 0)) op (.Number (.finite 0)), rfl⟩

/-- Claim C6: for every pair of child expressions and every operator tag
other than the four named ones, `BinaryOperation::evaluate` falls to the
`default` branch of its `switch` and returns exactly 0.0. -/
theorem unknown_tag_evaluates_zero (sqrtFn : α → α) (l r : Expression α) (op : Int)
    (h1 : op ≠ PLUS) (h2 : op ≠ MINUS) (h3 : op ≠ DIV) (h4 : op ≠ MUL) :
    evaluate sqrtFn (.BinaryOperation l op r) = .finite 0 := by
  simp [evaluate, h1, h2, h3, h4]

/-- Witness for `unknown_tag_evaluates_zero` at tag 63 over `ℚ`. -/
theorem unknown_tag_evaluates_zero_witness :
    evaluate (fun x : ℚ => x)
        (.BinaryOperation (.Number (.finite 5)) 63 (.Number (.finite 7))) = .finite 0 :=
  unknown_tag_evaluates_zero (fun x : ℚ => x) _ _ 63
    (by decide) (by decide) (by decide) (by decide)

/-- Claim C7: for every argument expression and every function name other
than `"sqrt"` and `"abs"`, `FunctionCall::evaluate` still evaluates its
argument but returns exactly 0.0, whatever the argument's value. -/
theorem unknown_function_evaluates_zero (sqrtFn : α → α) (name : String)
    (e : Expression α) (h1 : name ≠ "sqrt") (h2 : name ≠ "abs") :
    evaluate sqrtFn (.FunctionCall name e) = .finite 0 := by
  simp [evaluate, h1, h2]

/-- Witness for `unknown_function_evaluates_zero` at name `"bogus"` with
argument `Number(1)` over `ℚ`. -/
theorem unknown_function_evaluates_zero_witness :
    evaluate (fun x : ℚ => x) (.FunctionCall "bogus" (.Number (.finite 1))) = .finite 0 :=
  unknown_function_evaluates_zero (fun x : ℚ => x) "bogus" _ (by decide) (by decide)

/-- Claim C8: `Variable(name, v).evaluate()` returns the bound value `v`
exactly, for every name; the binding is the constructor argument and
`evaluate` consults no environment (it has no environment to consult). -/
theorem variable_evaluates_to_bound_value (sqrtFn : α → α) (name : String) (v : FP α) :
    evaluate sqrtFn (.Variable name v) = v := rfl

/-- Claim C10: construction places no constraint on name strings:
`Variable("", v)` evaluates to `v`, and `FunctionCall("", e)` falls into the
unknown-function fallback and evaluates to 0.0. -/
theorem empty_string_names (sqrtFn : α → α) (v : FP α) (e : Expression α) :
    evaluate sqrtFn (.Variable "" v) = v ∧
    evaluate sqrtFn (.FunctionCall "" e) = .finite 0 := by
  refine ⟨rfl, ?_⟩
  simp [evaluate]

/-- `evaluateFuel` is monotone in the fuel: a recursion budget that suffices
still suffices when enlarged. -/
theorem evaluateFuel_mono (sqrtFn : α → α) (e : Expression α) :
    ∀ {n m : Nat}, n ≤ m → ∀ {v : FP α},
      evaluateFuel sqrtFn n e = some v → evaluateFuel sqrtFn m e = some v := by
  induction e with
  | Number w =>
      intro n m hnm v h
      cases n with
      | zero => simp [evaluateFuel] at h
      | succ n =>
          cases m with
          | zero => omega
          | succ m => simpa [evaluateFuel] using h
  | Variable name w =>
      intro n m hnm v h
      cases n with
      | zero => simp [evaluateFuel] at h
      | succ n =>
          cases m with
          | zero => omega
          | succ m => simpa [evaluateFuel] using h
  | BinaryOperation l op r ihl ihr =>
      intro n m hnm v h
      cases n with
      | zero => simp [evaluateFuel] at h
      | succ n =>
          cases m with
          | zero => omega
          | succ m =>
              simp only [evaluateFuel, Option.bind_eq_bind, Option.bind_eq_some] at h ⊢
              obtain ⟨lv, hl, rv, hr, hv⟩ := h
              exact ⟨lv, ihl (by omega) hl, rv, ihr (by omega) hr, hv⟩
  | FunctionCall name arg ih =>
      intro n m hnm v h
      cases n with
      | zero => simp [evaluateFuel] at h
      | succ n =>
          cases m with
          | zero => omega
          | succ m =>
              simp only [evaluateFuel, Option.bind_eq_bind, Option.bind_eq_some] at h ⊢
              obtain ⟨av, ha, hv⟩ := h
              exact ⟨av, ih (by omega) ha, hv⟩

/-- `copyTreeFuel` is monotone in the fuel. -/
theorem copyTreeFuel_mono (e : Expression α) :
    ∀ {n m : Nat}, n ≤ m → ∀ {c : Expression α},
      copyTreeFuel n e = some c → copyTreeFuel m e = some c := by
  induction e with
  | Number w =>
      intro n m hnm c h
      cases n with
      | zero => simp [copyTreeFuel] at h
      | succ n =>
          cases m with
          | zero => omega
          | succ m => simpa [copyTreeFuel] using h
  | Variable name w =>
      intro n m hnm c h
      cases n with
      | zero => simp [copyTreeFuel] at h
      | succ n =>
          cases m with
          | zero => omega
          | succ m => simpa [copyTreeFuel] using h
  | BinaryOperation l op r ihl ihr =>
      intro n m hnm c h
      cases n with
      | zero => simp [copyTreeFuel] at h
      | succ n =>
          cases m with
          | zero => omega
          | succ m =>
              simp only [copyTreeFuel, Option.bind_eq_bind, Option.bind_eq_some] at h ⊢
              obtain ⟨lc, hl, rc, hr, hc⟩ := h
              exact ⟨lc, ihl (by omega) hl, rc, ihr (by omega) hr, hc⟩
  | FunctionCall name arg ih =>
      intro n m hnm c h
      cases n with
      | zero => simp [copyTreeFuel] at h
      | succ n =>
          cases m with
          | zero => omega
          | succ m =>
              simp only [copyTreeFuel, Option.bind_eq_bind, Option.bind_eq_some] at h ⊢
              obtain ⟨ac, ha, hc⟩ := h
              exact ⟨ac, ih (by omega) ha, hc⟩

/-- A recursion budget equal to the number of nodes lets `evaluateFuel`
finish and agree with `evaluate`. -/
theorem evaluateFuel_size (sqrtFn : α → α) (e : Expression α) :
    evaluateFuel sqrtFn (size e) e = some (evaluate sqrtFn e) := by
  induction e with
  | Number v => rfl
  | Variable name v => rfl
  | BinaryOperation l op r ihl ihr =>
      have hl : evaluateFuel sqrtFn (size l + size r) l = some (evaluate sqrtFn l) :=
        evaluateFuel_mono sqrtFn l (Nat.le_add_right _ _) ihl
      have hr : evaluateFuel sqrtFn (size l + size r) r = some (evaluate sqrtFn r) :=
        evaluateFuel_mono sqrtFn r (Nat.le_add_left _ _) ihr
      simp [size, evaluateFuel, hl, hr, evaluate]
  | FunctionCall name arg ih =>
      simp [size, evaluateFuel, ih, evaluate]

/-- A recursion budget equal to the number of nodes lets `copyTreeFuel`
finish and agree with `copyTree`. -/
theorem copyTreeFuel_size (e : Expression α) :
    copyTreeFuel (size e) e = some (copyTree e) := by
  induction e with
  | Number v => rfl
  | Variable name v => rfl
  | BinaryOperation l op r ihl ihr =>
      have hl : copyTreeFuel (size l + size r) l = some (copyTree l) :=
        copyTreeFuel_mono l (Nat.le_add_right _ _) ihl
      have hr : copyTreeFuel (size l + size r) r = some (copyTree r) :=
        copyTreeFuel_mono r (Nat.le_add_left _ _) ihr
      simp [size, copyTreeFuel, hl, hr, copyTree]
  | FunctionCall name arg ih =>
      simp [size, copyTreeFuel, ih, copyTree]

/-- Claim C9: on every finite tree the recursions of `evaluate()` and of the
`CopySyntaxTree` transformer terminate: with a recursion budget of one unit
per node (one per C++ recursive call), the fuel-instrumented versions return
`some` — they never exhaust the budget — and produce exactly the values of
the structural recursions. -/
theorem evaluate_and_copy_terminate (sqrtFn : α → α) (e : Expression α) :
    evaluateFuel sqrtFn (size e) e = some (evaluate sqrtFn e) ∧
    copyTreeFuel (size e) e = some (copyTree e) :=
  ⟨evaluateFuel_size sqrtFn e, copyTreeFuel_size e⟩

end AST
